import Mathlib

/- Verification of the Pairs Watch statistical pipeline (src/app.py).

   Modelling decisions:
   * price and return series are lists of rationals, ordered by date;
   * pandas NaN is modelled by Option where the code can produce it
     (rolling standard deviations and the volatility ratio); dropna is
     List.filterMap id;
   * the rolling sample standard deviation is represented by its square,
     the sample variance, because the square root of a rational is
     irrational; NaN-ness and zero-ness, which are all the length and
     alignment facts depend on, are unchanged by the square root;
   * statsmodels OLS with an added constant is embedded by its closed
     form (normal equations): beta = Sxy / Sxx, alpha = mean y - beta * mean x,
     which is what sm.OLS(Y, add_constant(X)).fit() computes when Sxx is
     nonzero; when Sxx = 0 the design is singular and beta / R squared are
     undefined, modelled by Option in betaOpt and rsquaredOpt;
   * np.quantile is embedded with its default linear interpolation rule;
   * dates are integers (days); datetime.today() is a parameter. -/

namespace PairsWatch

/-- Arithmetic mean of a list of rationals (mean of a pandas series). -/
def mean (xs : List ℚ) : ℚ := xs.sum / xs.length

/-- data.pct_change().dropna(): daily percentage returns, one entry
shorter than the price list. -/
def returnsOf (prices : List ℚ) : List ℚ :=
  List.zipWith (fun prev cur => cur / prev - 1) prices prices.tail

/-- Running product with an accumulator, as pandas cumprod. -/
def cumprodAux (acc : ℚ) : List ℚ → List ℚ
  | [] => []
  | x :: xs => (acc * x) :: cumprodAux (acc * x) xs

/-- pandas Series.cumprod(). -/
def cumprod (xs : List ℚ) : List ℚ := cumprodAux 1 xs

/-- cm_returns = (returns + 1).cumprod() - 1 from app.py line 67. -/
def cm_returns (rets : List ℚ) : List ℚ :=
  (cumprod (rets.map (fun r => r + 1))).map (fun v => v - 1)

/-- Centered cross product Sxy = sum (x_i - mean x) * (y_i - mean y). -/
def sxy (x y : List ℚ) : ℚ :=
  ((x.zip y).map (fun p => (p.1 - mean x) * (p.2 - mean y))).sum

/-- Centered sum of squares of the regressor. -/
def sxx (x : List ℚ) : ℚ := sxy x x

/-- OLS slope for Y on X with intercept (closed form of
sm.OLS(Y, add_constant(X)).fit().params[ticker1]). -/
def beta (x y : List ℚ) : ℚ := sxy x y / sxx x

/-- OLS intercept (params of the constant column). -/
def alpha (x y : List ℚ) : ℚ := mean y - beta x y * mean x

/-- model.resid: the intercept-inclusive OLS residual series. -/
def residOLS (x y : List ℚ) : List ℚ :=
  (x.zip y).map (fun p => p.2 - (alpha x y + beta x y * p.1))

/-- spread = returns[ticker2] - beta * returns[ticker1] (app.py line 157):
the intercept is omitted. -/
def spread (x y : List ℚ) : List ℚ :=
  (x.zip y).map (fun p => p.2 - beta x y * p.1)

/-- Residual sum of squares of the fitted model. -/
def ssr (x y : List ℚ) : ℚ := ((residOLS x y).map (fun e => e * e)).sum

/-- Centered total sum of squares of the response. -/
def tss (y : List ℚ) : ℚ := (y.map (fun v => (v - mean y) * (v - mean y))).sum

/-- model.rsquared = 1 - ssr / centered tss (the model has a constant). -/
def rsquared (x y : List ℚ) : ℚ := 1 - ssr x y / tss y

/-- beta, undefined (none) when the regressor has zero variance, in which
case the design matrix of sm.OLS is singular. -/
def betaOpt (x y : List ℚ) : Option ℚ :=
  if sxx x = 0 then none else some (beta x y)

/-- R squared, undefined (none) when the regressor has zero variance or
the centered total sum of squares vanishes. -/
def rsquaredOpt (x y : List ℚ) : Option ℚ :=
  if sxx x = 0 ∨ tss y = 0 then none else some (rsquared x y)

/-- The stationarity verdict printed at app.py lines 176-179: the spread
is reported stationary exactly when the ADF p-value is below 0.05. -/
def adf_report (adf_pvalue : ℚ) : Bool := decide (adf_pvalue < 0.05)

/-- np.quantile with the default linear interpolation: sort, take the
fractional position q * (n - 1), interpolate between the two neighbours. -/
def npQuantile (xs : List ℚ) (q : ℚ) : ℚ :=
  let s := List.insertionSort (fun a b => a ≤ b) xs
  match s with
  | [] => 0
  | _ :: _ =>
    let n := s.length
    let h := q * ((n : ℚ) - 1)
    let i := ⌊h⌋.toNat
    let g := h - (i : ℚ)
    let a := s.getD i 0
    let b := s.getD (min (i + 1) (n - 1)) 0
    a + g * (b - a)

/-- lower_percentile = np.quantile(df_coint, selected_percentile / 100)
(app.py line 218). -/
def lower_percentile (resid : List ℚ) (p : ℚ) : ℚ := npQuantile resid (p / 100)

/-- upper_percentile = np.quantile(df_coint, 1 - selected_percentile / 100)
(app.py line 219). -/
def upper_percentile (resid : List ℚ) (p : ℚ) : ℚ := npQuantile resid (1 - p / 100)

/-- The constant column added to the plot frame at app.py line 222. -/
def lowerBandColumn (resid : List ℚ) (p : ℚ) : List ℚ :=
  List.replicate resid.length (lower_percentile resid p)

/-- The constant column added to the plot frame at app.py line 223. -/
def upperBandColumn (resid : List ℚ) (p : ℚ) : List ℚ :=
  List.replicate resid.length (upper_percentile resid p)

/-- Sample variance with ddof = 1, the square of the pandas rolling std
value on one window; only evaluated on windows of length at least 2. -/
def sampleVar (w : List ℚ) : ℚ :=
  ((w.map (fun a => (a - mean w) * (a - mean w))).sum) / ((w.length : ℚ) - 1)

/-- The rolling window of length w ending at position t. -/
def windowAt (xs : List ℚ) (w t : ℕ) : List ℚ :=
  (xs.take (t + 1)).drop (t + 1 - w)

/-- returns[t].rolling(window=w).std(): entry t is NaN (none) while fewer
than w observations are available, and always NaN when w = 1 because the
sample standard deviation (ddof = 1) of a single observation is 0 / 0.
The carried rational is the sample variance (std squared). -/
def rollingStdSq (xs : List ℚ) (w : ℕ) : List (Option ℚ) :=
  (List.range xs.length).map
    (fun t => if t + 1 < w ∨ w ≤ 1 then none else some (sampleVar (windowAt xs w t)))

/-- Series.dropna(): keep the non-NaN entries. -/
def dropna (xs : List (Option ℚ)) : List ℚ := xs.filterMap id

/-- Float division with NaN: 0 / 0 is NaN (none); division by zero with a
nonzero numerator is infinite but not NaN, so it survives dropna (the
rational value then carried is immaterial to any length fact). -/
def divNaN (a b : ℚ) : Option ℚ :=
  if a = 0 ∧ b = 0 then none else some (a / b)

/-- app.py lines 256-263: both rolling stds are dropna-ed (they share one
index, so positional zip is the pandas index alignment), divided, and the
ratio is dropna-ed again. -/
def rolling_volatility_ratio (x y : List ℚ) (w : ℕ) : List ℚ :=
  dropna (List.zipWith divNaN (dropna (rollingStdSq x w)) (dropna (rollingStdSq y w)))

/-- Number of aligned window positions at which both rolling stds are
zero: exactly the 0 / 0 entries that the final dropna removes. -/
def bothZeroCount (x y : List ℚ) (w : ℕ) : ℕ :=
  ((dropna (rollingStdSq x w)).zip (dropna (rollingStdSq y w))).countP
    (fun p => decide (p.1 = 0 ∧ p.2 = 0))

/-- error_flag from app.py lines 50-58: end before start, or either date
in the future. -/
def error_flag (today start_date end_date : ℤ) : Bool :=
  decide (end_date < start_date) || (decide (start_date > today) || decide (end_date > today))

/-- date_diff = (end_date - start_date).days (app.py line 241). -/
def date_diff (start_date end_date : ℤ) : ℤ := end_date - start_date

/-- The statistics computed inside the `if not error_flag` block
(returns, cumulative returns, beta, spread); none when validation fails. -/
def mainStats (today start_date end_date : ℤ) (p1 p2 : List ℚ) :
    Option (List ℚ × List ℚ × List ℚ × List ℚ × ℚ × List ℚ) :=
  if error_flag today start_date end_date then none
  else
    some (returnsOf p1, returnsOf p2, cm_returns (returnsOf p1),
      cm_returns (returnsOf p2), beta (returnsOf p1) (returnsOf p2),
      spread (returnsOf p1) (returnsOf p2))

/-- The rolling volatility section (app.py lines 252-263): it runs only
when validation passed and the rolling window does not exceed the date
span. -/
def rollingSection (today start_date end_date : ℤ) (w : ℕ) (p1 p2 : List ℚ) :
    Option (List ℚ) :=
  if error_flag today start_date end_date then none
  else if (w : ℤ) > date_diff start_date end_date then none
  else some (rolling_volatility_ratio (returnsOf p1) (returnsOf p2) w)

lemma length_returnsOf (ps : List ℚ) : (returnsOf ps).length = ps.length - 1 := by
  simp only [returnsOf, List.length_zipWith, List.length_tail]
  omega

lemma cumprodAux_length : ∀ (acc : ℚ) (xs : List ℚ), (cumprodAux acc xs).length = xs.length
  | _, [] => rfl
  | acc, x :: xs => by simp [cumprodAux, cumprodAux_length]

lemma cumprodAux_getD : ∀ (xs : List ℚ) (acc : ℚ) (t : ℕ), t < xs.length →
    (cumprodAux acc xs).getD t 0 = acc * (xs.take (t + 1)).prod
  | [], _, t, h => by simp at h
  | x :: xs, acc, 0, _ => by simp [cumprodAux]
  | x :: xs, acc, t + 1, h => by
    simp only [cumprodAux, List.getD_cons_succ, List.take_succ_cons, List.prod_cons]
    rw [cumprodAux_getD xs (acc * x) t (by simpa using h)]
    ring

/-- C7: with no missing values, each daily return is
price_t / price_(t-1) - 1 and the return series is one entry shorter
than the price series. -/
theorem returns_pct_change (ps : List ℚ) :
    (returnsOf ps).length = ps.length - 1 ∧
    ∀ t, 0 < t → t < ps.length →
      (returnsOf ps).getD (t - 1) 0 = ps.getD t 0 / ps.getD (t - 1) 0 - 1 := by
  refine ⟨length_returnsOf ps, ?_⟩
  intro t ht hlt
  have h1 : t - 1 < (returnsOf ps).length := by rw [length_returnsOf]; omega
  have h2 : t - 1 < ps.length := by omega
  have h3 : t - 1 < ps.tail.length := by rw [List.length_tail]; omega
  rw [List.getD_eq_getElem _ _ h1, List.getD_eq_getElem _ _ hlt,
    List.getD_eq_getElem _ _ h2]
  show (List.zipWith (fun prev cur => cur / prev - 1) ps ps.tail)[t - 1] = _
  rw [List.getElem_zipWith]
  have h4 : t - 1 + 1 = t := by omega
  have := List.getElem_tail (l := ps) (i := t - 1) (by omega)
  simp only [this, h4]

/-- Witness for returns_pct_change at prices [1, 2]. -/
theorem returns_pct_change_witness :
    (returnsOf [1, 2]).getD 0 0 =
      ([1, 2] : List ℚ).getD 1 0 / ([1, 2] : List ℚ).getD 0 0 - 1 :=
  (returns_pct_change [1, 2]).2 1 (by decide) (by decide)

/-- C2: each entry of the cumulative return series is the running product
of (1 + r) over all returns up to and including that date, minus 1. -/
theorem cm_returns_cumprod (rs : List ℚ) :
    (cm_returns rs).length = rs.length ∧
    ∀ t, t < rs.length →
      (cm_returns rs).getD t 0 = ((rs.take (t + 1)).map (fun r => 1 + r)).prod - 1 := by
  constructor
  · simp [cm_returns, cumprod, cumprodAux_length]
  · intro t ht
    have hlenc : (cumprod (rs.map (fun r => r + 1))).length = rs.length := by
      simp [cumprod, cumprodAux_length]
    have h1 : t < (cm_returns rs).length := by
      simp [cm_returns, cumprod, cumprodAux_length, ht]
    rw [List.getD_eq_getElem _ _ h1]
    show ((cumprod (rs.map (fun r => r + 1))).map (fun v => v - 1))[t] = _
    rw [List.getElem_map]
    have h2 : t < (cumprod (rs.map (fun r => r + 1))).length := by rw [hlenc]; exact ht
    rw [← List.getD_eq_getElem _ 0 h2]
    rw [cumprod, cumprodAux_getD _ 1 t (by simpa [hlenc, cumprod, cumprodAux_length] using ht)]
    rw [← List.map_take]
    have : (rs.take (t + 1)).map (fun r => r + 1) = (rs.take (t + 1)).map (fun r => 1 + r) :=
      List.map_congr_left (fun a _ => by ring)
    rw [this, one_mul]

/-- Witness for cm_returns_cumprod at returns [1, 2]. -/
theorem cm_returns_cumprod_witness :
    (cm_returns [1, 2]).getD 1 0 =
      ((([1, 2] : List ℚ).take 2).map (fun r => 1 + r)).prod - 1 :=
  (cm_returns_cumprod [1, 2]).2 1 (by decide)

/-- C8 counterexample: for the price series [1, 2] the cumulative return
series starts at 1, not at 0 — it is not rebased to start at 0. -/
theorem cm_returns_not_rebased :
    (cm_returns (returnsOf [1, 2])).getD 0 0 ≠ 0 := by
  norm_num [cm_returns, cumprod, cumprodAux, returnsOf]

/-- C8 amended: the first entry of the cumulative return series equals
the first return (so it is 0 only when the first return is 0). -/
theorem cm_returns_head_eq_first_return (rs : List ℚ) (h : rs ≠ []) :
    (cm_returns rs).getD 0 0 = rs.getD 0 0 := by
  cases rs with
  | nil => exact absurd rfl h
  | cons a l => simp [cm_returns, cumprod, cumprodAux]

/-- Witness for cm_returns_head_eq_first_return at returns [5]. -/
theorem cm_returns_head_witness :
    (cm_returns [5]).getD 0 0 = ([5] : List ℚ).getD 0 0 :=
  cm_returns_head_eq_first_return [5] (by simp)

lemma length_spread (x y : List ℚ) : (spread x y).length = min x.length y.length := by
  simp [spread]

lemma length_residOLS (x y : List ℚ) : (residOLS x y).length = min x.length y.length := by
  simp [residOLS]

lemma spread_getD (x y : List ℚ) (t : ℕ) (h : t < (spread x y).length) :
    (spread x y).getD t 0 = y.getD t 0 - beta x y * x.getD t 0 := by
  have hm : t < min x.length y.length := by rw [← length_spread]; exact h
  have hx : t < x.length := by omega
  have hy : t < y.length := by omega
  rw [List.getD_eq_getElem _ _ h, List.getD_eq_getElem _ _ hx, List.getD_eq_getElem _ _ hy]
  show ((x.zip y).map _)[t] = _
  rw [List.getElem_map, List.getElem_zip]

lemma residOLS_getD (x y : List ℚ) (t : ℕ) (h : t < (residOLS x y).length) :
    (residOLS x y).getD t 0 = y.getD t 0 - (alpha x y + beta x y * x.getD t 0) := by
  have hm : t < min x.length y.length := by rw [← length_residOLS]; exact h
  have hx : t < x.length := by omega
  have hy : t < y.length := by omega
  rw [List.getD_eq_getElem _ _ h, List.getD_eq_getElem _ _ hx, List.getD_eq_getElem _ _ hy]
  show ((x.zip y).map _)[t] = _
  rw [List.getElem_map, List.getElem_zip]

/-- C1: the series handed to the ADF test is Y_t - beta * X_t with the
intercept omitted, and its mean is not zero in general (witnessed by a
concrete pair of return series with nonzero intercept). -/
theorem spread_omits_intercept :
    (∀ x y : List ℚ, ∀ t, t < (spread x y).length →
      (spread x y).getD t 0 = y.getD t 0 - beta x y * x.getD t 0) ∧
    mean (spread [0, 1] [1, 3]) ≠ 0 := by
  refine ⟨fun x y t h => spread_getD x y t h, ?_⟩
  norm_num [mean, spread, beta, sxy, sxx]

/-- Witness for spread_omits_intercept at x = [0, 1], y = [1, 3], t = 1. -/
theorem spread_omits_intercept_witness :
    (spread [0, 1] [1, 3]).getD 1 0 =
      ([1, 3] : List ℚ).getD 1 0 - beta [0, 1] [1, 3] * ([0, 1] : List ℚ).getD 1 0 :=
  spread_omits_intercept.1 [0, 1] [1, 3] 1 (by decide)

/-- C10: at every date the ADF spread and the plotted OLS residual differ
by exactly the constant intercept: spread_t = resid_t + alpha. -/
theorem spread_eq_resid_add_alpha (x y : List ℚ) (t : ℕ)
    (h : t < (spread x y).length) :
    (spread x y).getD t 0 = (residOLS x y).getD t 0 + alpha x y := by
  have hr : t < (residOLS x y).length := by
    rw [length_residOLS]; rw [length_spread] at h; exact h
  rw [spread_getD x y t h, residOLS_getD x y t hr]
  ring

/-- Witness for spread_eq_resid_add_alpha at x = [0, 1], y = [1, 3], t = 0. -/
theorem spread_eq_resid_add_alpha_witness :
    (spread [0, 1] [1, 3]).getD 0 0 =
      (residOLS [0, 1] [1, 3]).getD 0 0 + alpha [0, 1] [1, 3] :=
  spread_eq_resid_add_alpha [0, 1] [1, 3] 0 (by decide)

lemma zip_self_map_sum (f : ℚ × ℚ → ℚ) :
    ∀ x : List ℚ, ((x.zip x).map f).sum = (x.map (fun a => f (a, a))).sum
  | [] => rfl
  | a :: l => by
    simp only [List.zip_cons_cons, List.map_cons, List.sum_cons]
    rw [zip_self_map_sum f l]

lemma sxx_eq_tss (x : List ℚ) : sxx x = tss x := by
  simp only [sxx, sxy, tss]
  exact zip_self_map_sum _ x

lemma beta_self (x : List ℚ) (h : sxx x ≠ 0) : beta x x = 1 := by
  unfold beta
  exact div_self h

lemma alpha_self (x : List ℚ) (h : sxx x ≠ 0) : alpha x x = 0 := by
  rw [alpha, beta_self x h]; ring

lemma ssr_self (x : List ℚ) (h : sxx x ≠ 0) : ssr x x = 0 := by
  unfold ssr residOLS
  rw [alpha_self x h, beta_self x h, List.map_map]
  have : ((x.zip x).map ((fun e => e * e) ∘ fun p => p.2 - (0 + 1 * p.1))).sum =
      (x.map (fun a => ((fun e => e * e) ∘ fun p : ℚ × ℚ => p.2 - (0 + 1 * p.1)) (a, a))).sum :=
    zip_self_map_sum _ x
  rw [this]
  have hz : x.map (fun a => ((fun e : ℚ => e * e) ∘ fun p : ℚ × ℚ => p.2 - (0 + 1 * p.1)) (a, a)) =
      x.map (fun _ => (0 : ℚ)) :=
    List.map_congr_left (fun a _ => by simp)
  rw [hz]
  simp

lemma rsquared_self (x : List ℚ) (h : sxx x ≠ 0) : rsquared x x = 1 := by
  rw [rsquared, ssr_self x h, zero_div, sub_zero]

/-- C9: for identical price (hence return) series, beta = 1 and
R squared = 1 when the return variance is nonzero; both are undefined
when the return variance is zero. -/
theorem identical_series_regression (p : List ℚ) :
    (sxx (returnsOf p) ≠ 0 →
      betaOpt (returnsOf p) (returnsOf p) = some 1 ∧
      rsquaredOpt (returnsOf p) (returnsOf p) = some 1) ∧
    (sxx (returnsOf p) = 0 →
      betaOpt (returnsOf p) (returnsOf p) = none ∧
      rsquaredOpt (returnsOf p) (returnsOf p) = none) := by
  constructor
  · intro h
    have htss : tss (returnsOf p) ≠ 0 := by rw [← sxx_eq_tss]; exact h
    constructor
    · rw [betaOpt, if_neg h, beta_self _ h]
    · rw [rsquaredOpt, if_neg (by push_neg; exact ⟨h, htss⟩), rsquared_self _ h]
  · intro h
    constructor
    · rw [betaOpt, if_pos h]
    · rw [rsquaredOpt, if_pos (Or.inl h)]

/-- Witness for identical_series_regression: prices [1, 2, 3] give
nonzero return variance, prices [1, 2, 4] give constant returns. -/
theorem identical_series_regression_witness :
    betaOpt (returnsOf [1, 2, 3]) (returnsOf [1, 2, 3]) = some 1 ∧
    betaOpt (returnsOf [1, 2, 4]) (returnsOf [1, 2, 4]) = none :=
  ⟨((identical_series_regression [1, 2, 3]).1
      (by norm_num [sxx, sxy, mean, returnsOf])).1,
   ((identical_series_regression [1, 2, 4]).2
      (by norm_num [sxx, sxy, mean, returnsOf])).1⟩

/-- C3: the lower and upper bands are the p/100 and 1 - p/100 quantiles
of the whole residual series, and the plotted band columns are constant:
every row holds that single value. -/
theorem percentile_bands (resid : List ℚ) (p : ℚ) :
    lower_percentile resid p = npQuantile resid (p / 100) ∧
    upper_percentile resid p = npQuantile resid (1 - p / 100) ∧
    (lowerBandColumn resid p).length = resid.length ∧
    (upperBandColumn resid p).length = resid.length ∧
    ∀ t, t < resid.length →
      (lowerBandColumn resid p).getD t 0 = lower_percentile resid p ∧
      (upperBandColumn resid p).getD t 0 = upper_percentile resid p := by
  refine ⟨rfl, rfl, by simp [lowerBandColumn], by simp [upperBandColumn],
    fun t ht => ⟨?_, ?_⟩⟩
  · rw [lowerBandColumn, List.getD_eq_getElem _ _ (by simpa using ht),
      List.getElem_replicate]
  · rw [upperBandColumn, List.getD_eq_getElem _ _ (by simpa using ht),
      List.getElem_replicate]

/-- Witness for percentile_bands at residuals [1, 2], p = 1, t = 0. -/
theorem percentile_bands_witness :
    (lowerBandColumn [1, 2] 1).getD 0 0 = lower_percentile [1, 2] 1 :=
  ((percentile_bands [1, 2] 1).2.2.2.2 0 (by decide)).1

/-- C4: when the end date precedes the start date or either date lies in
the future, neither the main statistics nor the rolling section run; when
the rolling window exceeds the day span, the rolling section does not
run. -/
theorem validation_gates (today s e : ℤ) (w : ℕ) (p1 p2 : List ℚ) :
    ((e < s ∨ s > today ∨ e > today) →
      mainStats today s e p1 p2 = none ∧ rollingSection today s e w p1 p2 = none) ∧
    ((w : ℤ) > date_diff s e → rollingSection today s e w p1 p2 = none) := by
  constructor
  · intro h
    have hf : error_flag today s e = true := by
      rw [error_flag]
      rcases h with h | h | h <;> simp [h]
    exact ⟨by simp [mainStats, hf], by simp [rollingSection, hf]⟩
  · intro h
    by_cases hf : error_flag today s e = true
    · simp [rollingSection, hf]
    · simp [rollingSection, hf, h]

/-- Witness for validation_gates: end before start blocks everything;
an oversized rolling window blocks the rolling section. -/
theorem validation_gates_witness :
    (mainStats 0 1 0 [] [] = none ∧ rollingSection 0 1 0 3 [] [] = none) ∧
    rollingSection 0 (-5) (-3) 10 [] [] = none :=
  ⟨(validation_gates 0 1 0 3 [] []).1 (Or.inl (by decide)),
   (validation_gates 0 (-5) (-3) 10 [] []).2 (by decide)⟩

/-- C6: the spread is reported stationary exactly when the ADF p-value is
strictly below 0.05, and non-stationary otherwise. -/
theorem adf_threshold (pval : ℚ) :
    (pval < 0.05 → adf_report pval = true) ∧
    (¬ pval < 0.05 → adf_report pval = false) := by
  constructor <;> intro h <;> simp [adf_report, h]

/-- Witness for adf_threshold at p-values 0.01 and 0.5. -/
theorem adf_threshold_witness :
    adf_report (1 / 100) = true ∧ adf_report (1 / 2) = false :=
  ⟨(adf_threshold (1 / 100)).1 (by norm_num),
   (adf_threshold (1 / 2)).2 (by norm_num)⟩

lemma filterMap_range_window_length (f : ℕ → ℚ) (w : ℕ) (hw : 2 ≤ w) :
    ∀ n : ℕ,
      (List.filterMap
        (fun t => if t + 1 < w ∨ w ≤ 1 then none else some (f t))
        (List.range n)).length = n - (w - 1)
  | 0 => by simp
  | n + 1 => by
    rw [List.range_succ, List.filterMap_append, List.length_append,
      filterMap_range_window_length f w hw n]
    by_cases hc : n + 1 < w
    · have h1 : List.filterMap
          (fun t => if t + 1 < w ∨ w ≤ 1 then none else some (f t)) [n] = [] := by
        simp [hc]
      rw [h1]
      simp only [List.length_nil]
      omega
    · have hnot : ¬ (n + 1 < w ∨ w ≤ 1) := by omega
      have h2 : List.filterMap
          (fun t => if t + 1 < w ∨ w ≤ 1 then none else some (f t)) [n] = [f n] := by
        simp [hnot]
      rw [h2]
      simp only [List.length_singleton]
      omega

lemma dropna_rollingStdSq_length (xs : List ℚ) (w : ℕ) (hw : 2 ≤ w) :
    (dropna (rollingStdSq xs w)).length = xs.length - (w - 1) := by
  rw [dropna, rollingStdSq, List.filterMap_map]
  simp only [Function.comp_def, id_eq]
  exact filterMap_range_window_length _ w hw xs.length

lemma dropna_zipdiv_length :
    ∀ (a b : List ℚ), a.length = b.length →
      (dropna (List.zipWith divNaN a b)).length =
        a.length - (a.zip b).countP (fun p => decide (p.1 = 0 ∧ p.2 = 0))
  | [], [], _ => by simp [dropna]
  | [], _ :: _, h => by simp at h
  | _ :: _, [], h => by simp at h
  | x :: a, y :: b, h => by
    have hlen : a.length = b.length := by simpa using h
    have hle := List.countP_le_length
      (p := fun p : ℚ × ℚ => decide (p.1 = 0 ∧ p.2 = 0)) (l := a.zip b)
    have hziplen : (a.zip b).length = min a.length b.length := List.length_zip ..
    by_cases hz : x = 0 ∧ y = 0
    · have hd : divNaN x y = none := by rw [divNaN, if_pos hz]
      have hstep : dropna (List.zipWith divNaN (x :: a) (y :: b)) =
          dropna (List.zipWith divNaN a b) := by
        simp [List.zipWith_cons_cons, dropna, hd]
      have hc : ((x :: a).zip (y :: b)).countP
            (fun p => decide (p.1 = 0 ∧ p.2 = 0)) =
          (a.zip b).countP (fun p => decide (p.1 = 0 ∧ p.2 = 0)) + 1 := by
        simp [List.countP_cons, hz.1, hz.2]
      rw [hstep, dropna_zipdiv_length a b hlen, hc]
      simp only [List.length_cons]
      omega
    · have hd : divNaN x y = some (x / y) := by rw [divNaN, if_neg hz]
      have hstep : dropna (List.zipWith divNaN (x :: a) (y :: b)) =
          (x / y) :: dropna (List.zipWith divNaN a b) := by
        simp [List.zipWith_cons_cons, dropna, hd]
      have hc : ((x :: a).zip (y :: b)).countP
            (fun p => decide (p.1 = 0 ∧ p.2 = 0)) =
          (a.zip b).countP (fun p => decide (p.1 = 0 ∧ p.2 = 0)) := by
        simp [List.countP_cons, hz]
      rw [hstep]
      simp only [List.length_cons]
      rw [dropna_zipdiv_length a b hlen, hc]
      omega

/-- C5 counterexample: for the return series [1, 2] and [1, 3] with the
accepted window w = 1, the rolling volatility ratio is empty (the sample
standard deviation of a single observation is NaN), so its length is not
n - w + 1 = 2; no misalignment between the two windows is involved. -/
theorem rolling_ratio_length_counterexample :
    (rolling_volatility_ratio [1, 2] [1, 3] 1).length ≠ 2 - 1 + 1 := by
  norm_num [rolling_volatility_ratio, rollingStdSq, dropna, List.range_succ]

/-- C5 amended: for equal-length return series and a window with
2 ≤ w ≤ n, the rolling volatility ratio after dropping NaN rows has
length (n - w + 1) minus the number of aligned window positions at which
both rolling standard deviations are zero (those give 0 / 0 = NaN and are
dropped); the two rolling windows share one index, so no misalignment
occurs. -/
theorem rolling_ratio_length (x y : List ℚ) (w : ℕ) (hw : 2 ≤ w)
    (hxy : x.length = y.length) (hwn : w ≤ x.length) :
    (rolling_volatility_ratio x y w).length =
      (x.length - w + 1) - bothZeroCount x y w := by
  rw [rolling_volatility_ratio, bothZeroCount]
  have ha : (dropna (rollingStdSq x w)).length = x.length - (w - 1) :=
    dropna_rollingStdSq_length x w hw
  have hb : (dropna (rollingStdSq y w)).length = y.length - (w - 1) :=
    dropna_rollingStdSq_length y w hw
  have hab : (dropna (rollingStdSq x w)).length = (dropna (rollingStdSq y w)).length := by
    rw [ha, hb, hxy]
  rw [dropna_zipdiv_length _ _ hab, ha]
  have : x.length - (w - 1) = x.length - w + 1 := by omega
  rw [this]

/-- Witness for rolling_ratio_length at x = [1, 2, 3], y = [1, 2, 4],
w = 2. -/
theorem rolling_ratio_length_witness :
    (rolling_volatility_ratio [1, 2, 3] [1, 2, 4] 2).length =
      (3 - 2 + 1) - bothZeroCount [1, 2, 3] [1, 2, 4] 2 :=
  rolling_ratio_length [1, 2, 3] [1, 2, 4] 2 (by decide) (by decide) (by decide)

end PairsWatch
